import Mathlib

set_option maxRecDepth 10000
set_option maxHeartbeats 1000000

/-!
Shallow embedding of the tetromino game engine (crate tetromino_core):
geometry primitives, the piece table, the playfield, the bag randomizer
and the Game orchestration, translated from the Rust source
(src/misc.rs, src/pieces/mod.rs, src/pieces/pieces_def.rs, src/game.rs).
Machine integers are modelled as Int/Nat with explicit two's-complement
wrapping where the source relies on it (i8 arithmetic, usize casts).
-/

namespace Tetromino

/-- Two's-complement wrap of an integer into the i8 range [-128, 127];
models Rust i8 wrapping arithmetic. -/
def wrap8 (a : Int) : Int := (a + 128) % 256 - 128

/-- The modulus of usize arithmetic (64-bit). -/
def U64 : Nat := 2 ^ 64

/-- Models the Rust cast of an i8 value to usize (sign extension then
reinterpretation, i.e. reduction mod 2^64). -/
def castUsize (i : Int) : Nat := (i % (U64 : Int)).toNat

/-- Models usize::wrapping_add on values already below 2^64. -/
def wrapAdd (a b : Nat) : Nat := (a + b) % U64

/-- The predicate that an integer is a valid i8 value. -/
def I8Range (a : Int) : Prop := -128 ≤ a ∧ a ≤ 127

instance (a : Int) : Decidable (I8Range a) := by
  unfold I8Range; infer_instance

/-- Mirrors misc.rs Vec2 specialised to i8 components. -/
structure Vec2I8 where
  x : Int
  y : Int
deriving DecidableEq

/-- Component-wise addition with i8 wrapping; mirrors the AddAssign impl. -/
def Vec2I8.add (a b : Vec2I8) : Vec2I8 := ⟨wrap8 (a.x + b.x), wrap8 (a.y + b.y)⟩

/-- Component-wise negation with i8 wrapping; mirrors the Neg impl. -/
def Vec2I8.neg (a : Vec2I8) : Vec2I8 := ⟨wrap8 (-a.x), wrap8 (-a.y)⟩

/-- Mirrors misc.rs Color with 8-bit channels stored as Nat. -/
structure Color where
  r : Nat
  g : Nat
  b : Nat
deriving DecidableEq

/-- The pure black color, the empty-cell sentinel. -/
def Color.BLACK : Color := ⟨0, 0, 0⟩

/-- The pure white color, the out-of-bounds sentinel. -/
def Color.WHITE : Color := ⟨255, 255, 255⟩

/-- Mirrors Color::is_black. -/
def Color.isBlack (c : Color) : Bool := c.r == 0 && c.g == 0 && c.b == 0

/-- Mirrors pieces/mod.rs PieceMatrix: a 16-bit occupancy word plus a
size tag (2, 3 or 4). -/
structure PieceMatrix where
  bits : Nat
  size : Nat
deriving DecidableEq

/-- Reads bit (x, y) of a matrix word; mirrors bits_to_matrix followed by
the mat[x][y] access pattern of the source. -/
def matGet (bits x y : Nat) : Bool := bits.testBit (x * 4 + y)

/-- Mirrors matrix_to_bits: packs a 4x4 boolean grid (given row-major in x)
into the 16-bit word, bit index x*4+y. -/
def matrixToBits (m : List (List Bool)) : Nat :=
  (List.range 4).foldl
    (fun a x =>
      (List.range 4).foldl
        (fun a2 y => a2 + (if (m.getD x []).getD y false then 2 ^ (x * 4 + y) else 0)) a)
    0

/-- Mirrors PieceMatrix::empty. -/
def PieceMatrix.empty : PieceMatrix := ⟨0, 2⟩

/-- Mirrors PieceMatrix::new_size2; the 2x2 block pattern is padded with
clear cells into the 4x4 frame. -/
def PieceMatrix.newSize2 (b : List (List Bool)) : PieceMatrix :=
  ⟨matrixToBits [
      [(b.getD 0 []).getD 0 false, (b.getD 0 []).getD 1 false, false, false],
      [(b.getD 1 []).getD 0 false, (b.getD 1 []).getD 1 false, false, false],
      [false, false, false, false],
      [false, false, false, false]],
    2⟩

/-- Mirrors PieceMatrix::new_size3. -/
def PieceMatrix.newSize3 (b : List (List Bool)) : PieceMatrix :=
  ⟨matrixToBits [
      [(b.getD 0 []).getD 0 false, (b.getD 0 []).getD 1 false, (b.getD 0 []).getD 2 false, false],
      [(b.getD 1 []).getD 0 false, (b.getD 1 []).getD 1 false, (b.getD 1 []).getD 2 false, false],
      [(b.getD 2 []).getD 0 false, (b.getD 2 []).getD 1 false, (b.getD 2 []).getD 2 false, false],
      [false, false, false, false]],
    3⟩

/-- Mirrors PieceMatrix::new_size4. -/
def PieceMatrix.newSize4 (b : List (List Bool)) : PieceMatrix :=
  ⟨matrixToBits b, 4⟩

/-- Mirrors PieceMatrix::rotate_right, including the rot2 branch exactly as
written in the source (its second row reads b[0][0], b[0][1]). -/
def PieceMatrix.rotateRight (s : PieceMatrix) : PieceMatrix :=
  let b := fun x y => matGet s.bits x y
  match s.size with
  | 2 => PieceMatrix.newSize2 [
      [b 0 1, b 1 1],
      [b 0 0, b 0 1]]
  | 3 => PieceMatrix.newSize3 [
      [b 0 2, b 1 2, b 2 2],
      [b 0 1, b 1 1, b 2 1],
      [b 0 0, b 1 0, b 2 0]]
  | 4 => PieceMatrix.newSize4 [
      [b 0 3, b 1 3, b 2 3, b 3 3],
      [b 0 2, b 1 2, b 2 2, b 3 2],
      [b 0 1, b 1 1, b 2 1, b 3 1],
      [b 0 0, b 1 0, b 2 0, b 3 0]]
  | _ => s

/-- Mirrors pieces/mod.rs PieceState: a matrix and the four kick tests used
when rotating clockwise out of this state. -/
structure PieceState where
  matrix : PieceMatrix
  kick_tests : List Vec2I8
deriving DecidableEq

/-- Mirrors PieceState::empty. -/
def PieceState.empty : PieceState := ⟨PieceMatrix.empty, List.replicate 4 ⟨0, 0⟩⟩

/-- Mirrors the Default impl for PieceState (all-set 4x4 matrix). -/
def PieceState.defaultState : PieceState := ⟨⟨65535, 4⟩, List.replicate 4 ⟨0, 0⟩⟩

/-- Mirrors pieces/mod.rs PieceData: the four rotation states and a color. -/
structure PieceData where
  states : List PieceState
  color : Color
deriving DecidableEq

/-- Mirrors PieceData::state (indexing into the 4 rotation states). -/
def PieceData.state (p : PieceData) (i : Nat) : PieceState :=
  p.states.getD i PieceState.empty

/-- Mirrors PieceData::size. -/
def PieceData.size (p : PieceData) : Nat := (p.state 0).matrix.size

/-- Mirrors PieceData::new: state 0 is the base matrix with kick entry 0;
state i (i = 1..3) is state i-1's matrix rotated right paired with kick
entry i. -/
def PieceData.new (base : PieceMatrix) (kicks : List (List Vec2I8)) (color : Color) :
    PieceData :=
  let s0 : PieceState := ⟨base, kicks.getD 0 []⟩
  let s1 : PieceState := ⟨s0.matrix.rotateRight, kicks.getD 1 []⟩
  let s2 : PieceState := ⟨s1.matrix.rotateRight, kicks.getD 2 []⟩
  let s3 : PieceState := ⟨s2.matrix.rotateRight, kicks.getD 3 []⟩
  ⟨[s0, s1, s2, s3], color⟩

/-- Mirrors the Default impl for PieceData. -/
def PieceData.defaultData : PieceData :=
  ⟨List.replicate 4 PieceState.defaultState, Color.BLACK⟩

/-- Mirrors pieces_def.rs create_jlstz_kick_tests. -/
def jlstzKickTests : List (List Vec2I8) :=
  [ [⟨-1, 0⟩, ⟨-1, -1⟩, ⟨0, 2⟩, ⟨-1, 2⟩],
    [⟨1, 0⟩, ⟨1, 1⟩, ⟨0, -2⟩, ⟨1, -2⟩],
    [⟨1, 0⟩, ⟨1, -1⟩, ⟨0, 2⟩, ⟨1, 2⟩],
    [⟨-1, 0⟩, ⟨-1, 1⟩, ⟨0, -2⟩, ⟨-1, 2⟩] ]

/-- Mirrors pieces_def.rs create_i_kick_tests. -/
def iKickTests : List (List Vec2I8) :=
  [ [⟨-2, 0⟩, ⟨1, 0⟩, ⟨-2, 1⟩, ⟨1, -2⟩],
    [⟨-1, 0⟩, ⟨2, 0⟩, ⟨-1, -2⟩, ⟨2, 1⟩],
    [⟨2, 0⟩, ⟨-1, 0⟩, ⟨2, -1⟩, ⟨-1, 2⟩],
    [⟨1, 0⟩, ⟨-2, 0⟩, ⟨1, 1⟩, ⟨-2, -1⟩] ]

/-- The O piece's all-zero kick table. -/
def oKickTests : List (List Vec2I8) :=
  List.replicate 4 (List.replicate 4 ⟨0, 0⟩)

/-- Mirrors pieces_def.rs create_all_pieces: the 7 canonical pieces in
source order I, J, L, O, S, T, Z. -/
def allPieces : List PieceData :=
  [ PieceData.new
      (PieceMatrix.newSize4 (List.replicate 4 [false, true, false, false]))
      iKickTests ⟨0x00, 0xf0, 0xf0⟩,
    PieceData.new
      (PieceMatrix.newSize3 [
        [true, true, false],
        [false, true, false],
        [false, true, false]])
      jlstzKickTests ⟨0x00, 0x00, 0xf0⟩,
    PieceData.new
      (PieceMatrix.newSize3 [
        [false, true, false],
        [false, true, false],
        [true, true, false]])
      jlstzKickTests ⟨0xf0, 0xa0, 0x00⟩,
    PieceData.new
      (PieceMatrix.newSize2 [[true, true], [true, true]])
      oKickTests ⟨0xf0, 0xf0, 0x00⟩,
    PieceData.new
      (PieceMatrix.newSize3 [
        [false, true, false],
        [true, true, false],
        [true, false, false]])
      jlstzKickTests ⟨0x00, 0xf0, 0x00⟩,
    PieceData.new
      (PieceMatrix.newSize3 [
        [false, true, false],
        [true, true, false],
        [false, true, false]])
      jlstzKickTests ⟨0xa0, 0x00, 0xf0⟩,
    PieceData.new
      (PieceMatrix.newSize3 [
        [true, false, false],
        [true, true, false],
        [false, true, false]])
      jlstzKickTests ⟨0xf0, 0x00, 0x00⟩ ]

/-- Mirrors game.rs neg_kicks. -/
def negKicks (src : List Vec2I8) : List Vec2I8 := src.map Vec2I8.neg

/-- Mirrors game.rs PLAYFIELD_WIDTH. -/
def PLAYFIELD_WIDTH : Nat := 10

/-- Mirrors game.rs PLAYFIELD_HEIGHT. -/
def PLAYFIELD_HEIGHT : Nat := 20

/-- Mirrors game.rs TRUE_PLAYFIELD_HEIGHT. -/
def TRUE_PLAYFIELD_HEIGHT : Nat := PLAYFIELD_HEIGHT * 2

/-- Mirrors game.rs ActivePiece. -/
structure ActivePiece where
  piece_data : PieceData
  rotation : Nat
  position : Vec2I8
deriving DecidableEq

/-- Mirrors ActivePiece::new (rotation starts at 0). -/
def ActivePiece.new (piece_data : PieceData) (spawn_pos : Vec2I8) : ActivePiece :=
  ⟨piece_data, 0, spawn_pos⟩

/-- Mirrors ActivePiece::matrix, returning the packed bits of the matrix
selected by the current rotation. -/
def ActivePiece.matrixBits (p : ActivePiece) : Nat :=
  (p.piece_data.state p.rotation).matrix.bits

/-- Mirrors game.rs Playfield: 2*HEIGHT rows of WIDTH cell colors, row
index first as in fill_state[y][x]. -/
structure Playfield where
  rows : List (List Color)
deriving DecidableEq

/-- A row of WIDTH empty (black) cells. -/
def emptyRow : List Color := List.replicate PLAYFIELD_WIDTH Color.BLACK

/-- Mirrors Playfield::new: all tiles black. -/
def Playfield.new : Playfield :=
  ⟨List.replicate TRUE_PLAYFIELD_HEIGHT emptyRow⟩

/-- Mirrors Playfield::is_in_bounds. -/
def Playfield.isInBounds (x y : Nat) : Bool :=
  x < PLAYFIELD_WIDTH && y < TRUE_PLAYFIELD_HEIGHT

/-- Mirrors Playfield::get_tile: the stored color if in bounds, else the
white out-of-bounds sentinel. -/
def Playfield.getTile (f : Playfield) (x y : Nat) : Color :=
  if Playfield.isInBounds x y then (f.rows.getD y []).getD x Color.BLACK
  else Color.WHITE

/-- Mirrors Playfield::has_tile. -/
def Playfield.hasTile (f : Playfield) (x y : Nat) : Bool :=
  !(f.getTile x y).isBlack

/-- Mirrors Playfield::has_overlap: every set cell of the active matrix is
tested at matrix offset plus position, cast through usize wrapping. -/
def Playfield.hasOverlap (f : Playfield) (piece : ActivePiece) : Bool :=
  let mat := piece.matrixBits
  let xBase := castUsize piece.position.x
  let yBase := castUsize piece.position.y
  (List.range 4).any fun x =>
    (List.range 4).any fun y =>
      matGet mat x y && f.hasTile (wrapAdd x xBase) (wrapAdd y yBase)

/-- Mirrors the get_tile_mut-and-assign step of copy_in_piece: in-bounds
cells are overwritten, out-of-bounds cells are skipped. -/
def Playfield.setTile (f : Playfield) (x y : Nat) (c : Color) : Playfield :=
  if Playfield.isInBounds x y then
    ⟨f.rows.set y ((f.rows.getD y []).set x c)⟩
  else f

/-- Mirrors Playfield::copy_in_piece. -/
def Playfield.copyInPiece (f : Playfield) (piece : ActivePiece) : Playfield :=
  let mat := piece.matrixBits
  let xBase := castUsize piece.position.x
  let yBase := castUsize piece.position.y
  (List.range 4).foldl
    (fun f1 x =>
      (List.range 4).foldl
        (fun f2 y =>
          if matGet mat x y then
            f2.setTile (wrapAdd x xBase) (wrapAdd y yBase) piece.piece_data.color
          else f2)
        f1)
    f

/-- Mirrors the inner row_full scan of clear_completed_lines: the row is
full iff has_tile holds for all WIDTH columns. -/
def Playfield.rowFullAt (f : Playfield) (y : Nat) : Bool :=
  (List.range PLAYFIELD_WIDTH).all fun x => f.hasTile x y

/-- One iteration of the clear_completed_lines loop at row index y:
if the row is full, rows above shift down by one, the top row becomes
empty, and the counter increments. -/
def clearStep (st : List (List Color) × Nat) (y : Nat) : List (List Color) × Nat :=
  if Playfield.rowFullAt ⟨st.1⟩ y then
    (emptyRow :: (st.1.take y ++ st.1.drop (y + 1)), st.2 + 1)
  else st

/-- Mirrors Playfield::clear_completed_lines, returning the cleared count
and the new playfield. -/
def Playfield.clearCompletedLines (f : Playfield) : Nat × Playfield :=
  let res := (List.range TRUE_PLAYFIELD_HEIGHT).foldl clearStep (f.rows, 0)
  (res.2, ⟨res.1⟩)

/-- Mirrors game.rs RandomGenerator, with the random choices injected as a
stream of naturals: draw k of the stream stands for the value returned by
the k-th gen_range call, reduced mod the current range size. -/
structure RandomGenerator where
  stream : Nat → Nat
  idx : Nat
  bag : List Nat
  bag_left : Nat

/-- The bag-refill loop of next_piece: starting from the list of all kind
indices, repeatedly remove the element at a stream-chosen index; the
removed elements in order form the new bag. -/
def refillGo (stream : Nat → Nat) : List Nat → Nat → Nat → List Nat
  | _, _, 0 => []
  | cur, idx, n + 1 =>
    let j := stream idx % cur.length
    cur.getD j 0 :: refillGo stream (cur.eraseIdx j) (idx + 1) n

/-- The full bag refill: seven removals from the list of the 7 kind
indices. -/
def refillBag (stream : Nat → Nat) (idx : Nat) : List Nat :=
  refillGo stream [0, 1, 2, 3, 4, 5, 6] idx 7

/-- Mirrors RandomGenerator::next_piece at the level of kind indices:
pop from the bag if nonempty, else refill and pop entry 6. -/
def RandomGenerator.nextKind (r : RandomGenerator) : Nat × RandomGenerator :=
  if r.bag_left > 0 then
    let bl := r.bag_left - 1
    (r.bag.getD bl 0, { r with bag_left := bl })
  else
    let bag := refillBag r.stream r.idx
    (bag.getD 6 0, { r with bag := bag, bag_left := 6, idx := r.idx + 7 })

/-- Mirrors RandomGenerator::next_piece including the pieces-array lookup. -/
def RandomGenerator.nextPiece (r : RandomGenerator) : PieceData × RandomGenerator :=
  (allPieces.getD (r.nextKind).1 PieceData.defaultData, (r.nextKind).2)

/-- Mirrors RandomGenerator::new with the injected stream: empty bag. -/
def RandomGenerator.new (stream : Nat → Nat) : RandomGenerator :=
  ⟨stream, 0, List.replicate 7 0, 0⟩

/-- Mirrors game.rs Game. -/
structure Game where
  playfield : Playfield
  active_piece : ActivePiece
  next_pieces : List PieceData
  held_piece : Option PieceData
  used_hold : Bool
  rng : RandomGenerator

/-- Mirrors Game::try_move: apply the candidate change to position and
rotation; commit iff the changed piece does not overlap, else the state
is restored exactly. -/
def Game.tryMove (g : Game) (change : Vec2I8 → Nat → Vec2I8 × Nat) : Game × Bool :=
  let cand : ActivePiece :=
    { g.active_piece with
        position := (change g.active_piece.position g.active_piece.rotation).1,
        rotation := (change g.active_piece.position g.active_piece.rotation).2 }
  if g.playfield.hasOverlap cand then (g, false)
  else ({ g with active_piece := cand }, true)

/-- Mirrors Game::try_move_kicks: try each kick in order, committing the
first success. -/
def Game.tryMoveKicks (g : Game) (trgRot : Nat) : List Vec2I8 → Game × Bool
  | [] => (g, false)
  | t :: rest =>
    let att := g.tryMove fun p _ => (p.add t, trgRot)
    if att.2 then (att.1, true) else att.1.tryMoveKicks trgRot rest

/-- Mirrors Game::move_left. -/
def Game.moveLeft (g : Game) : Game × Bool :=
  g.tryMove fun p r => (⟨wrap8 (p.x - 1), p.y⟩, r)

/-- Mirrors Game::move_right. -/
def Game.moveRight (g : Game) : Game × Bool :=
  g.tryMove fun p r => (⟨wrap8 (p.x + 1), p.y⟩, r)

/-- Mirrors Game::move_down. -/
def Game.moveDown (g : Game) : Game × Bool :=
  g.tryMove fun p r => (⟨p.x, wrap8 (p.y + 1)⟩, r)

/-- The shared body of rotate_left and rotate_right: the bare rotation
attempt followed, on failure, by the kick loop; mirrors the expression
try_move(..) or-else try_move_kicks(..) of the source. -/
def Game.rotateWith (g : Game) (trgRot : Nat) (kicks : List Vec2I8) : Game × Bool :=
  let att := g.tryMove fun p _ => (p, trgRot)
  if att.2 then (att.1, true) else att.1.tryMoveKicks trgRot kicks

/-- Mirrors Game::rotate_left: target rotation is current minus 1 mod 4,
kicks are the target state's table negated. -/
def Game.rotateLeft (g : Game) : Game × Bool :=
  let curRot := g.active_piece.rotation
  let trgRot := if curRot == 0 then 3 else curRot - 1
  g.rotateWith trgRot (negKicks (g.active_piece.piece_data.state trgRot).kick_tests)

/-- Mirrors Game::rotate_right: target rotation is current plus 1 mod 4,
kicks are the current state's table. -/
def Game.rotateRight (g : Game) : Game × Bool :=
  let curRot := g.active_piece.rotation
  let trgRot := if curRot == 3 then 0 else curRot + 1
  g.rotateWith trgRot (g.active_piece.piece_data.state curRot).kick_tests

/-- Fuel-bounded unfolding of the quick_drop loop: repeat move_down while
it succeeds. Fuel 256 exceeds the number of rows any i8 position can
descend, as proved below. -/
def Game.quickDropFuel : Nat → Game → Game
  | 0, g => g
  | n + 1, g =>
    if (g.moveDown).2 then Game.quickDropFuel n (g.moveDown).1 else g

/-- Mirrors Game::quick_drop through the fuel-bounded loop. -/
def Game.quickDrop (g : Game) : Game := Game.quickDropFuel 256 g

/-- Mirrors Game::pop_next_piece: pop the queue front and push a fresh
draw at the back. -/
def Game.popNextPiece (g : Game) : PieceData × Game :=
  (g.next_pieces.headD PieceData.defaultData,
   { g with
      next_pieces := g.next_pieces.tail ++ [(g.rng.nextPiece).1],
      rng := (g.rng.nextPiece).2 })

/-- Mirrors Game::spawn_new_piece: centred spawn column by size, spawn row
one above the visible area, an immediate move_down for sizes below 4, and
the final overlap check. -/
def Game.spawnNewPiece (g : Game) (newPiece : PieceData) : Game × Bool :=
  let spawnPos : Vec2I8 :=
    if newPiece.size == 2 then ⟨4, (PLAYFIELD_HEIGHT - 1 : Nat)⟩
    else ⟨3, (PLAYFIELD_HEIGHT - 1 : Nat)⟩
  let g1 : Game := { g with active_piece := ActivePiece.new newPiece spawnPos }
  let g2 : Game := if newPiece.size < 4 then (g1.moveDown).1 else g1
  (g2, !g2.playfield.hasOverlap g2.active_piece)

/-- Mirrors Game::hold_piece. -/
def Game.holdPiece (g : Game) : Game × Bool :=
  if g.used_hold then (g, false)
  else
    let toHold := g.active_piece.piece_data
    let g1 :=
      match g.held_piece with
      | some held => (({ g with held_piece := none } : Game).spawnNewPiece held).1
      | none => (((g.popNextPiece).2).spawnNewPiece (g.popNextPiece).1).1
    ({ g1 with used_hold := true, held_piece := some toHold }, true)

/-- Mirrors Game::lock_down_piece. -/
def Game.lockDownPiece (g : Game) : Game :=
  { g with playfield := g.playfield.copyInPiece g.active_piece }

/-- Mirrors Game::finish_piece_turn: lock, pop the queue, clear the hold
flag, clear lines, and spawn the popped piece; some count on success,
none on game over. -/
def Game.finishPieceTurn (g : Game) : Game × Option Nat :=
  let g1 := g.lockDownPiece
  let np := (g1.popNextPiece).1
  let g2 := (g1.popNextPiece).2
  let g3 : Game := { g2 with used_hold := false }
  let cleared := g3.playfield.clearCompletedLines
  let g4 : Game := { g3 with playfield := cleared.2 }
  let att := g4.spawnNewPiece np
  if att.2 then (att.1, some cleared.1) else (att.1, none)

/-- Mirrors Game::new with the injected random stream: seed a queue of 8,
then spawn the first draw (its success flag is discarded, as in the
source). -/
def Game.new (stream : Nat → Nat) : Game :=
  let g0 : Game :=
    { playfield := Playfield.new,
      active_piece := ActivePiece.new PieceData.defaultData ⟨0, 0⟩,
      next_pieces := [],
      held_piece := none,
      used_hold := false,
      rng := RandomGenerator.new stream }
  let first := (g0.rng.nextPiece).1
  let fill := (List.range 8).foldl
    (fun (st : List PieceData × RandomGenerator) _ =>
      (st.1 ++ [(st.2.nextPiece).1], (st.2.nextPiece).2))
    ([], (g0.rng.nextPiece).2)
  let g1 : Game := { g0 with next_pieces := fill.1, rng := fill.2 }
  ((g1.spawnNewPiece first).1 : Game)

/-!
Derived and specification-side definitions used to state the claims.
-/

/-- Specification-side clockwise rotation of a bit matrix about the piece's
own n by n bounding submatrix: destination cell (x, y) reads source cell
(y, n-1-x); all cells outside the submatrix are clear. -/
def rotCWSpec (n bits : Nat) (x y : Nat) : Bool :=
  if x < n && y < n then matGet bits y (n - 1 - x) else false

/-- Specification-side rotation resolver: try each translation offset in
order against the target rotation, committing the first candidate that
does not overlap; if all candidates overlap, nothing changes. -/
def commitFirstSpec (g : Game) (trgRot : Nat) : List Vec2I8 → Game × Bool
  | [] => (g, false)
  | t :: ts =>
    let cand : ActivePiece :=
      { g.active_piece with rotation := trgRot, position := g.active_piece.position.add t }
    if g.playfield.hasOverlap cand then commitFirstSpec g trgRot ts
    else ({ g with active_piece := cand }, true)

/-- Specification-side clockwise rotation: target is rotation plus 1 mod 4;
candidates are the bare rotation followed by the current state's kick
table entries. -/
def Game.rotateRightSpec (g : Game) : Game × Bool :=
  commitFirstSpec g ((g.active_piece.rotation + 1) % 4)
    (⟨0, 0⟩ :: (g.active_piece.piece_data.state g.active_piece.rotation).kick_tests)

/-- Specification-side counter-clockwise rotation: target is rotation minus
1 mod 4; candidates are the bare rotation followed by the target state's
kick table with every offset negated. -/
def Game.rotateLeftSpec (g : Game) : Game × Bool :=
  commitFirstSpec g ((g.active_piece.rotation + 3) % 4)
    (⟨0, 0⟩ ::
      negKicks (g.active_piece.piece_data.state ((g.active_piece.rotation + 3) % 4)).kick_tests)

/-- Row fullness as a predicate on a stored row: all WIDTH cells are
occupied. -/
def rowFull (r : List Color) : Bool :=
  (List.range PLAYFIELD_WIDTH).all fun x => !(r.getD x Color.BLACK).isBlack

/-- The reduced move_down step acting on the playfield and active piece
only; the full move_down factors through it. -/
def paMoveDown (f : Playfield) (a : ActivePiece) : ActivePiece × Bool :=
  let cand : ActivePiece := { a with position := ⟨a.position.x, wrap8 (a.position.y + 1)⟩ }
  if f.hasOverlap cand then (a, false) else (cand, true)

/-- Iterated reduced move_down. -/
def paIter : Nat → Playfield → ActivePiece → ActivePiece
  | 0, _, a => a
  | n + 1, f, a => paIter n f (paMoveDown f a).1

/-- Success flags of n successive reduced move_down calls. -/
def paResults : Nat → Playfield → ActivePiece → List Bool
  | 0, _, _ => []
  | n + 1, f, a => (paMoveDown f a).2 :: paResults n f (paMoveDown f a).1

/-- The reduced spawn_new_piece acting on the playfield and the new piece
only; the full spawn_new_piece factors through it. -/
def paSpawn (f : Playfield) (p : PieceData) : ActivePiece × Bool :=
  let spawnPos : Vec2I8 :=
    if p.size == 2 then ⟨4, (PLAYFIELD_HEIGHT - 1 : Nat)⟩
    else ⟨3, (PLAYFIELD_HEIGHT - 1 : Nat)⟩
  let a1 := ActivePiece.new p spawnPos
  let a2 := if p.size < 4 then (paMoveDown f a1).1 else a1
  (a2, !f.hasOverlap a2)

/-- The list of success flags of n successive move_down calls. -/
def moveDownResults : Nat → Game → List Bool
  | 0, _ => []
  | n + 1, g => (g.moveDown).2 :: moveDownResults n (g.moveDown).1

/-- The game after n move_down calls (a failing call changes nothing). -/
def moveDownIter : Nat → Game → Game
  | 0, g => g
  | n + 1, g => moveDownIter n (g.moveDown).1

/-- Kind indices of n successive randomizer draws. -/
def drawKinds : Nat → RandomGenerator → List Nat
  | 0, _ => []
  | n + 1, r => (r.nextKind).1 :: drawKinds n (r.nextKind).2

/-- The randomizer state invariant: the bag holds 7 entries, at most 7 are
unconsumed, and every unconsumed entry is a valid kind index. -/
def RInv (r : RandomGenerator) : Prop :=
  r.bag.length = 7 ∧ r.bag_left ≤ 7 ∧ ∀ i, i < r.bag_left → r.bag.getD i 0 < 7

/-- A piece datum that is one of the 7 canonical pieces. -/
def PieceOk (p : PieceData) : Prop :=
  ∃ k, k < 7 ∧ p = allPieces.getD k PieceData.defaultData

/-- The kind index of the first piece Game::new draws for a given stream. -/
def firstKind (stream : Nat → Nat) : Nat := (refillBag stream 0).getD 6 0

/-- The all-zero random choice stream, used for concrete traces. -/
def zeroStream : Nat → Nat := fun _ => 0

/-- A distinctive non-full row marking the R2 line of the line-clear
example: one green cell at column 0. -/
def r2Row : List Color := (⟨0, 240, 0⟩ : Color) :: List.replicate 9 Color.BLACK

/-- A distinctive non-full row marking the R4 line of the line-clear
example: one blue cell at column 9. -/
def r4Row : List Color := List.replicate 9 Color.BLACK ++ [(⟨0, 0, 240⟩ : Color)]

/-- A full row of red cells for the line-clear example. -/
def fullRow : List Color := List.replicate 10 (⟨240, 0, 0⟩ : Color)

/-- The line-clear example playfield: rows 36 and 38 full, rows 37 and 39
distinctive and not full, everything above empty. -/
def clearExampleField : Playfield :=
  ⟨List.replicate 36 emptyRow ++ [fullRow, r2Row, fullRow, r4Row]⟩

/-- The golden-value playfield for the I-piece kick test: single blocks at
(5, 33) and (3, 33). -/
def kickGoldenField : Playfield :=
  (Playfield.new.setTile 5 33 ⟨240, 0, 0⟩).setTile 3 33 ⟨240, 0, 0⟩

/-- The golden-value game: I piece in rotation state 0 at position (3, 30)
on the golden field; the bare clockwise rotation and the (-2,0) kick both
overlap while the (1,0) kick is free. -/
def kickGoldenGame : Game :=
  { playfield := kickGoldenField,
    active_piece := ⟨allPieces.getD 0 PieceData.defaultData, 0, ⟨3, 30⟩⟩,
    next_pieces := [],
    held_piece := none,
    used_hold := false,
    rng := RandomGenerator.new zeroStream }

/-- The game state reached from a fresh zero-stream game by one immediate
finish_piece_turn: that call locks the first piece at its spawn position
and reports game over, leaving the replacement piece overlapping. -/
def overlapGame : Game := ((Game.new zeroStream).finishPieceTurn).1

/-- The number of successful move_down calls available to a fresh game
whose first piece has kind index k: the I piece (index 0) skips the
spawn-time drop and falls one row further. -/
def dropSteps (k : Nat) : Nat := if k = 0 then 19 else 18

/-- The active piece spawned for kind index k on the empty field. -/
def spawnedAP (k : Nat) : ActivePiece :=
  (paSpawn Playfield.new (allPieces.getD k PieceData.defaultData)).1

/-- The active piece of kind index k after falling to rest on the empty
field. -/
def droppedAP (k : Nat) : ActivePiece :=
  paIter (dropSteps k) Playfield.new (spawnedAP k)

/-- The field left after locking the fallen piece of kind index k into
the empty field. -/
def lockedField (k : Nat) : Playfield :=
  Playfield.new.copyInPiece (droppedAP k)

/-!
General helper lemmas.
-/

theorem allCongr {l : List Nat} {f g : Nat → Bool} (h : ∀ x ∈ l, f x = g x) :
    l.all f = l.all g := by
  induction l with
  | nil => rfl
  | cons a t ih =>
    have ha : f a = g a := h a (List.mem_cons_self a t)
    have ht : t.all f = t.all g := ih fun x hx => h x (List.mem_cons_of_mem a hx)
    simp only [List.all_cons, ha, ht]

theorem wrap8_id {a : Int} (h1 : -128 ≤ a) (h2 : a ≤ 127) : wrap8 a = a := by
  unfold wrap8
  omega

/-!
Lemmas about try_move and the kick loop.
-/

theorem tryMove_fail {g : Game} {c : Vec2I8 → Nat → Vec2I8 × Nat}
    (h : (g.tryMove c).2 = false) : (g.tryMove c).1 = g := by
  unfold Game.tryMove at h ⊢
  dsimp only at h ⊢
  split at h
  · next hov => simp [hov]
  · next hov => simp at h

theorem tryMove_fields (g : Game) (c : Vec2I8 → Nat → Vec2I8 × Nat) :
    ((g.tryMove c).1).playfield = g.playfield ∧
    ((g.tryMove c).1).next_pieces = g.next_pieces ∧
    ((g.tryMove c).1).held_piece = g.held_piece ∧
    ((g.tryMove c).1).used_hold = g.used_hold ∧
    ((g.tryMove c).1).rng = g.rng ∧
    ((g.tryMove c).1).active_piece.piece_data = g.active_piece.piece_data := by
  unfold Game.tryMove
  dsimp only
  split <;> exact ⟨rfl, rfl, rfl, rfl, rfl, rfl⟩

theorem tryMove_success_noOverlap {g : Game} {c : Vec2I8 → Nat → Vec2I8 × Nat}
    (h : (g.tryMove c).2 = true) :
    ((g.tryMove c).1).playfield.hasOverlap ((g.tryMove c).1).active_piece = false := by
  unfold Game.tryMove at h ⊢
  dsimp only at h ⊢
  split at h
  · next hov => simp at h
  · next hov => simp [hov]

theorem tryMoveKicks_nil (g : Game) (trg : Nat) : g.tryMoveKicks trg [] = (g, false) := rfl

theorem tryMoveKicks_cons (g : Game) (trg : Nat) (t : Vec2I8) (rest : List Vec2I8) :
    g.tryMoveKicks trg (t :: rest) =
      if (g.tryMove fun p _ => (p.add t, trg)).2 then
        ((g.tryMove fun p _ => (p.add t, trg)).1, true)
      else ((g.tryMove fun p _ => (p.add t, trg)).1).tryMoveKicks trg rest := rfl

theorem tryMoveKicks_fail {g : Game} {trg : Nat} {ks : List Vec2I8}
    (h : (g.tryMoveKicks trg ks).2 = false) : (g.tryMoveKicks trg ks).1 = g := by
  induction ks generalizing g with
  | nil => rfl
  | cons t rest ih =>
    rw [tryMoveKicks_cons] at h ⊢
    split
    · next hc => rw [if_pos hc] at h; simp at h
    · next hc =>
        rw [if_neg hc] at h
        have h1 : (g.tryMove fun p _ => (p.add t, trg)).1 = g :=
          tryMove_fail (by simpa using hc)
        rw [h1] at h ⊢
        exact ih h

theorem tryMoveKicks_success_noOverlap {g : Game} {trg : Nat} {ks : List Vec2I8}
    (h : (g.tryMoveKicks trg ks).2 = true) :
    ((g.tryMoveKicks trg ks).1).playfield.hasOverlap
      ((g.tryMoveKicks trg ks).1).active_piece = false := by
  induction ks generalizing g with
  | nil => simp [tryMoveKicks_nil] at h
  | cons t rest ih =>
    by_cases hc : (g.tryMove fun p _ => (p.add t, trg)).2 = true
    · rw [tryMoveKicks_cons, if_pos hc]
      exact tryMove_success_noOverlap (g := g) (c := fun p _ => (p.add t, trg)) hc
    · rw [tryMoveKicks_cons, if_neg hc] at h ⊢
      exact ih h

theorem rotateWith_fail {g : Game} {trg : Nat} {ks : List Vec2I8}
    (h : (g.rotateWith trg ks).2 = false) : (g.rotateWith trg ks).1 = g := by
  unfold Game.rotateWith at h ⊢
  dsimp only at h ⊢
  by_cases hc : (g.tryMove fun p _ => (p, trg)).2 = true
  · rw [if_pos hc] at h
    simp at h
  · rw [if_neg hc] at h ⊢
    have h1 : (g.tryMove fun p _ => (p, trg)).1 = g :=
      tryMove_fail (by simpa using hc)
    rw [h1] at h ⊢
    exact tryMoveKicks_fail h

theorem rotateWith_success_noOverlap {g : Game} {trg : Nat} {ks : List Vec2I8}
    (h : (g.rotateWith trg ks).2 = true) :
    ((g.rotateWith trg ks).1).playfield.hasOverlap
      ((g.rotateWith trg ks).1).active_piece = false := by
  unfold Game.rotateWith at h ⊢
  dsimp only at h ⊢
  by_cases hc : (g.tryMove fun p _ => (p, trg)).2 = true
  · rw [if_pos hc]
    exact tryMove_success_noOverlap (g := g) (c := fun p _ => (p, trg)) hc
  · rw [if_neg hc] at h ⊢
    exact tryMoveKicks_success_noOverlap h

theorem rotateLeft_eq (g : Game) :
    g.rotateLeft =
      g.rotateWith (if g.active_piece.rotation == 0 then 3 else g.active_piece.rotation - 1)
        (negKicks
          (g.active_piece.piece_data.state
            (if g.active_piece.rotation == 0 then 3 else g.active_piece.rotation - 1)).kick_tests) :=
  rfl

theorem rotateRight_eq (g : Game) :
    g.rotateRight =
      g.rotateWith (if g.active_piece.rotation == 3 then 0 else g.active_piece.rotation + 1)
        (g.active_piece.piece_data.state g.active_piece.rotation).kick_tests :=
  rfl

/-- C2: a move or rotate call that returns false changes nothing at all:
the resulting game state (active piece position and rotation, and every
playfield cell) is exactly the state before the call, even when all four
kicks were tried and failed. -/
theorem c2_failed_move_changes_nothing :
    ∀ g : Game,
      ((g.moveLeft).2 = false → (g.moveLeft).1 = g) ∧
      ((g.moveRight).2 = false → (g.moveRight).1 = g) ∧
      ((g.moveDown).2 = false → (g.moveDown).1 = g) ∧
      ((g.rotateLeft).2 = false → (g.rotateLeft).1 = g) ∧
      ((g.rotateRight).2 = false → (g.rotateRight).1 = g) := by
  intro g
  refine ⟨fun h => tryMove_fail h, fun h => tryMove_fail h, fun h => tryMove_fail h, ?_, ?_⟩
  · intro h
    rw [rotateLeft_eq] at h ⊢
    exact rotateWith_fail h
  · intro h
    rw [rotateRight_eq] at h ⊢
    exact rotateWith_fail h

/-!
Arithmetic lemmas about the usize cast and wrapping addition, and the
out-of-bounds behaviour of the tile queries.
-/

theorem wrapAdd_oob {o : Nat} {p : Int} {B : Nat} (ho : o ≤ 3) (hp : I8Range p)
    (hB10 : 10 ≤ B) (hB : B ≤ 40)
    (h : p + o < 0 ∨ (B : Int) ≤ p + o) : B ≤ wrapAdd o (castUsize p) := by
  obtain ⟨hp1, hp2⟩ := hp
  have e1 : (U64 : Nat) = 18446744073709551616 := by norm_num [U64]
  simp only [wrapAdd, castUsize, e1] at *
  omega

theorem wrapAdd_inb {o : Nat} {p : Int} (hp : I8Range p)
    (h1 : 0 ≤ p + o) (h2 : p + o < 40) : (wrapAdd o (castUsize p) : Int) = p + o := by
  obtain ⟨hp1, hp2⟩ := hp
  have e1 : (U64 : Nat) = 18446744073709551616 := by norm_num [U64]
  simp only [wrapAdd, castUsize, e1] at *
  omega

theorem getTile_oob {f : Playfield} {x y : Nat}
    (h : PLAYFIELD_WIDTH ≤ x ∨ TRUE_PLAYFIELD_HEIGHT ≤ y) : f.getTile x y = Color.WHITE := by
  unfold Playfield.getTile
  rw [if_neg]
  simp only [Playfield.isInBounds, PLAYFIELD_WIDTH, TRUE_PLAYFIELD_HEIGHT, PLAYFIELD_HEIGHT] at h ⊢
  simp only [Bool.and_eq_true, decide_eq_true_eq, not_and]
  omega

theorem hasTile_oob {f : Playfield} {x y : Nat}
    (h : PLAYFIELD_WIDTH ≤ x ∨ TRUE_PLAYFIELD_HEIGHT ≤ y) : f.hasTile x y = true := by
  unfold Playfield.hasTile
  rw [getTile_oob h]
  decide

theorem getTile_inb {f : Playfield} {x y : Nat}
    (hx : x < PLAYFIELD_WIDTH) (hy : y < TRUE_PLAYFIELD_HEIGHT) :
    f.getTile x y = (f.rows.getD y []).getD x Color.BLACK := by
  unfold Playfield.getTile
  rw [if_pos]
  simp only [Playfield.isInBounds, Bool.and_eq_true, decide_eq_true_eq]
  exact ⟨hx, hy⟩

theorem hasTile_inb {f : Playfield} {x y : Nat}
    (hx : x < PLAYFIELD_WIDTH) (hy : y < TRUE_PLAYFIELD_HEIGHT) :
    f.hasTile x y = !((f.rows.getD y []).getD x Color.BLACK).isBlack := by
  unfold Playfield.hasTile
  rw [getTile_inb hx hy]

/-- C6: out-of-range coordinates resolve to the white sentinel and report
occupied, and has_overlap reports any piece cell whose folded grid
coordinate falls outside the grid (left, right, bottom, or any negative
coordinate) as overlapping; no other bounds check exists. -/
theorem c6_out_of_bounds_blocking :
    (∀ (f : Playfield) (x y : Nat), PLAYFIELD_WIDTH ≤ x ∨ TRUE_PLAYFIELD_HEIGHT ≤ y →
        f.getTile x y = Color.WHITE ∧ f.hasTile x y = true) ∧
    (∀ (f : Playfield) (x y : Nat), x < PLAYFIELD_WIDTH → y < TRUE_PLAYFIELD_HEIGHT →
        f.getTile x y = (f.rows.getD y []).getD x Color.BLACK) ∧
    (∀ (f : Playfield) (piece : ActivePiece) (x y : Nat), x < 4 → y < 4 →
        matGet piece.matrixBits x y = true →
        I8Range piece.position.x → I8Range piece.position.y →
        (piece.position.x + x < 0 ∨ (10 : Int) ≤ piece.position.x + x ∨
          piece.position.y + y < 0 ∨ (40 : Int) ≤ piece.position.y + y) →
        f.hasOverlap piece = true) := by
  refine ⟨fun f x y h => ⟨getTile_oob h, hasTile_oob h⟩,
          fun f x y hx hy => getTile_inb hx hy,
          fun f piece x y hx hy hm hpx hpy hout => ?_⟩
  unfold Playfield.hasOverlap
  dsimp only
  rw [List.any_eq_true]
  refine ⟨x, List.mem_range.2 hx, ?_⟩
  rw [List.any_eq_true]
  refine ⟨y, List.mem_range.2 hy, ?_⟩
  rw [hm, Bool.true_and]
  apply hasTile_oob
  have hw : PLAYFIELD_WIDTH = 10 := by norm_num [PLAYFIELD_WIDTH]
  have hh : TRUE_PLAYFIELD_HEIGHT = 40 := by
    norm_num [TRUE_PLAYFIELD_HEIGHT, PLAYFIELD_HEIGHT]
  rw [hw, hh]
  rcases hout with h | h | h | h
  · exact Or.inl (wrapAdd_oob (by omega) hpx (by norm_num) (by norm_num) (Or.inl h))
  · exact Or.inl (wrapAdd_oob (by omega) hpx (by norm_num) (by norm_num) (Or.inr h))
  · exact Or.inr (wrapAdd_oob (by omega) hpy (by norm_num) (by norm_num) (Or.inl h))
  · exact Or.inr (wrapAdd_oob (by omega) hpy (by norm_num) (by norm_num) (Or.inr h))

/-- Witness for C6 at concrete inputs: column 10 is out of bounds on the
empty field, and an I piece at x = -1 overlaps through the wraparound
fold alone. -/
theorem c6_out_of_bounds_blocking_witness :
    Playfield.new.getTile 10 0 = Color.WHITE ∧
    Playfield.new.hasTile 10 0 = true ∧
    Playfield.new.hasOverlap ⟨allPieces.getD 0 PieceData.defaultData, 0, ⟨-1, 20⟩⟩ = true := by
  refine ⟨(c6_out_of_bounds_blocking.1 Playfield.new 10 0 (Or.inl (by norm_num [PLAYFIELD_WIDTH]))).1,
          (c6_out_of_bounds_blocking.1 Playfield.new 10 0 (Or.inl (by norm_num [PLAYFIELD_WIDTH]))).2,
          c6_out_of_bounds_blocking.2.2 Playfield.new
            ⟨allPieces.getD 0 PieceData.defaultData, 0, ⟨-1, 20⟩⟩ 0 1
            (by norm_num) (by norm_num) (by decide) (by decide) (by decide)
            (Or.inl (by norm_num))⟩

/-!
Field-preservation lemmas for move_down, spawn_new_piece, pop_next_piece
and the hold mechanics.
-/

theorem moveDown_fields (g : Game) :
    ((g.moveDown).1).playfield = g.playfield ∧
    ((g.moveDown).1).next_pieces = g.next_pieces ∧
    ((g.moveDown).1).held_piece = g.held_piece ∧
    ((g.moveDown).1).used_hold = g.used_hold ∧
    ((g.moveDown).1).rng = g.rng ∧
    ((g.moveDown).1).active_piece.piece_data = g.active_piece.piece_data :=
  tryMove_fields g _

theorem spawnAfter_fields (g : Game) (p : PieceData) (sp : Vec2I8) :
    let g2 := if p.size < 4 then
        (({ g with active_piece := ActivePiece.new p sp } : Game).moveDown).1
      else { g with active_piece := ActivePiece.new p sp }
    g2.playfield = g.playfield ∧
    g2.next_pieces = g.next_pieces ∧
    g2.held_piece = g.held_piece ∧
    g2.used_hold = g.used_hold ∧
    g2.rng = g.rng ∧
    g2.active_piece.piece_data = p := by
  dsimp only
  split
  · exact moveDown_fields { g with active_piece := ActivePiece.new p sp }
  · exact ⟨rfl, rfl, rfl, rfl, rfl, rfl⟩

theorem spawn_fields (g : Game) (p : PieceData) :
    ((g.spawnNewPiece p).1).playfield = g.playfield ∧
    ((g.spawnNewPiece p).1).next_pieces = g.next_pieces ∧
    ((g.spawnNewPiece p).1).held_piece = g.held_piece ∧
    ((g.spawnNewPiece p).1).used_hold = g.used_hold ∧
    ((g.spawnNewPiece p).1).rng = g.rng ∧
    ((g.spawnNewPiece p).1).active_piece.piece_data = p := by
  unfold Game.spawnNewPiece
  dsimp only
  exact spawnAfter_fields g p _

theorem popNext_fields (g : Game) :
    ((g.popNextPiece).2).playfield = g.playfield ∧
    ((g.popNextPiece).2).active_piece = g.active_piece ∧
    ((g.popNextPiece).2).held_piece = g.held_piece ∧
    ((g.popNextPiece).2).used_hold = g.used_hold ∧
    ((g.popNextPiece).2).next_pieces = g.next_pieces.tail ++ [(g.rng.nextPiece).1] ∧
    (g.popNextPiece).1 = g.next_pieces.headD PieceData.defaultData :=
  ⟨rfl, rfl, rfl, rfl, rfl, rfl⟩

theorem holdPiece_used {g : Game} (h : g.used_hold = true) : g.holdPiece = (g, false) := by
  unfold Game.holdPiece
  rw [if_pos h]

/-- C8: hold_piece fails with no effect when the hold was already used;
otherwise it succeeds, stores the active kind, spawns the held piece or
the popped queue front (refilling the tail), and marks hold used;
finish_piece_turn clears the flag; two consecutive holds return true then
false. -/
theorem c8_hold_piece_semantics :
    ∀ g : Game,
      (g.used_hold = true → g.holdPiece = (g, false)) ∧
      (g.used_hold = false →
        (g.holdPiece).2 = true ∧
        ((g.holdPiece).1).used_hold = true ∧
        ((g.holdPiece).1).held_piece = some g.active_piece.piece_data ∧
        (∀ hp, g.held_piece = some hp →
          ((g.holdPiece).1).active_piece.piece_data = hp ∧
          ((g.holdPiece).1).next_pieces = g.next_pieces) ∧
        (g.held_piece = none →
          ((g.holdPiece).1).active_piece.piece_data
            = g.next_pieces.headD PieceData.defaultData ∧
          ((g.holdPiece).1).next_pieces
            = g.next_pieces.tail ++ [(g.rng.nextPiece).1]) ∧
        (((g.holdPiece).1).holdPiece).2 = false) ∧
      ((g.finishPieceTurn).1).used_hold = false := by
  intro g
  refine ⟨fun h => holdPiece_used h, fun h => ?_, ?_⟩
  · have hne : ¬(g.used_hold = true) := by simp [h]
    unfold Game.holdPiece
    rw [if_neg hne]
    dsimp only
    cases hheld : g.held_piece with
    | none =>
        refine ⟨rfl, rfl, rfl, ?_, ?_, ?_⟩
        · intro hp hcontra
          cases hcontra
        · intro _
          constructor
          · have h1 := (spawn_fields ((g.popNextPiece).2) ((g.popNextPiece).1)).2.2.2.2.2
            have h2 := (popNext_fields g).2.2.2.2.2
            simpa [h1] using h2
          · have h1 := (spawn_fields ((g.popNextPiece).2) ((g.popNextPiece).1)).2.1
            have h2 := (popNext_fields g).2.2.2.2.1
            simpa [h1] using h2
        · rw [if_pos rfl]
    | some hp0 =>
        refine ⟨rfl, rfl, rfl, ?_, ?_, ?_⟩
        · intro hp hsome
          cases hsome
          constructor
          · exact (spawn_fields ({ g with held_piece := none }) hp0).2.2.2.2.2
          · exact (spawn_fields ({ g with held_piece := none }) hp0).2.1
        · intro hcontra
          cases hcontra
        · rw [if_pos rfl]
  · unfold Game.finishPieceTurn
    dsimp only
    split
    · exact (spawn_fields _ _).2.2.2.1
    · exact (spawn_fields _ _).2.2.2.1

/-- Witness for C8 at a concrete input: a fresh zero-stream game has an
unused hold; the first hold call succeeds and the second fails. -/
theorem c8_hold_piece_semantics_witness :
    ((Game.new zeroStream).holdPiece).2 = true ∧
    ((((Game.new zeroStream).holdPiece).1).holdPiece).2 = false := by
  have h := (c8_hold_piece_semantics (Game.new zeroStream)).2.1 (by decide)
  exact ⟨h.1, h.2.2.2.2.2⟩

/-- C7: for each of the 7 canonical pieces and each i in 1..3, rotation
state i's matrix is state i-1's matrix rotated 90 degrees clockwise
within the piece's own size-by-size bounding submatrix with all cells
outside clear, and state i's kick tests are the supplied table's entry i
verbatim (the I table, the shared JLSTZ table, or the all-zero O table). -/
theorem c7_rotation_state_generation :
    (∀ p ∈ allPieces, p.size = 2 ∨ p.size = 3 ∨ p.size = 4) ∧
    (∀ p ∈ allPieces, ∀ i, i < 3 → ∀ x, x < 4 → ∀ y, y < 4 →
        matGet (p.state (i + 1)).matrix.bits x y
          = rotCWSpec p.size (p.state i).matrix.bits x y) ∧
    (∀ i, i < 4 → 1 ≤ i →
        ((allPieces.getD 0 PieceData.defaultData).state i).kick_tests
          = iKickTests.getD i []) ∧
    (∀ j ∈ [1, 2, 4, 5, 6], ∀ i, i < 4 → 1 ≤ i →
        ((allPieces.getD j PieceData.defaultData).state i).kick_tests
          = jlstzKickTests.getD i []) ∧
    (∀ i, i < 4 → 1 ≤ i →
        ((allPieces.getD 3 PieceData.defaultData).state i).kick_tests
          = oKickTests.getD i []) := by
  decide

/-- Witness for C7 at concrete inputs: the I piece's state 1 agrees with
the clockwise rotation of state 0 at cell (2, 0), and its state 1 kick
tests are the I table's entry 1. -/
theorem c7_rotation_state_generation_witness :
    matGet ((allPieces.getD 0 PieceData.defaultData).state 1).matrix.bits 2 0
      = rotCWSpec (allPieces.getD 0 PieceData.defaultData).size
          ((allPieces.getD 0 PieceData.defaultData).state 0).matrix.bits 2 0 ∧
    ((allPieces.getD 0 PieceData.defaultData).state 1).kick_tests
      = iKickTests.getD 1 [] :=
  ⟨c7_rotation_state_generation.2.1 (allPieces.getD 0 PieceData.defaultData) (by decide)
      0 (by decide) 2 (by decide) 0 (by decide),
   c7_rotation_state_generation.2.2.1 1 (by decide) (by decide)⟩

/-!
The line-clear loop: the playfield after clear_completed_lines consists of
as many fresh empty rows on top as there were full rows, followed by the
non-full rows in their original order.
-/

theorem rowFullAt_eq (rows : List (List Color)) {y : Nat} (hy : y < TRUE_PLAYFIELD_HEIGHT) :
    Playfield.rowFullAt ⟨rows⟩ y = rowFull (rows.getD y []) := by
  unfold Playfield.rowFullAt rowFull
  apply allCongr
  intro x hx
  rw [hasTile_inb (List.mem_range.1 hx) hy]

theorem countP_bool_split (l : List (List Color)) :
    l.countP (fun r => rowFull r) + l.countP (fun r => !(rowFull r)) = l.length := by
  induction l with
  | nil => rfl
  | cons a t ih => cases h : rowFull a <;> simp [List.countP_cons, h] <;> omega

theorem clearStep_eq (rows : List (List Color)) (cnt y : Nat) :
    clearStep (rows, cnt) y =
      if Playfield.rowFullAt ⟨rows⟩ y then
        (emptyRow :: (rows.take y ++ rows.drop (y + 1)), cnt + 1)
      else (rows, cnt) := rfl

theorem clearLoop_eq (orig : List (List Color)) (h40 : orig.length = 40) :
    ∀ n, n ≤ 40 →
      (List.range n).foldl clearStep (orig, 0) =
        (List.replicate ((orig.take n).countP (fun r => rowFull r)) emptyRow
            ++ (orig.take n).filter (fun r => !(rowFull r)) ++ orig.drop n,
          (orig.take n).countP (fun r => rowFull r)) := by
  intro n
  induction n with
  | zero => intro _; simp
  | succ n ih =>
    intro hn
    have hn40 : n ≤ 40 := by omega
    have hnlt : n < orig.length := by omega
    rw [List.range_succ, List.foldl_append, ih hn40]
    simp only [List.foldl_cons, List.foldl_nil]
    set c := (orig.take n).countP (fun r => rowFull r) with hc
    set P := List.replicate c emptyRow ++ (orig.take n).filter (fun r => !(rowFull r)) with hP
    have htlen : (orig.take n).length = n := by rw [List.length_take]; omega
    have hcle : c ≤ n := by
      rw [hc]
      calc (orig.take n).countP (fun r => rowFull r) ≤ (orig.take n).length :=
            List.countP_le_length _
      _ = n := htlen
    have hPlen : P.length = n := by
      rw [hP, List.length_append, List.length_replicate,
        ← List.countP_eq_length_filter]
      have := countP_bool_split (orig.take n)
      rw [htlen] at this
      omega
    have hgetn : (P ++ orig.drop n).getD n [] = orig[n] := by
      rw [List.getD_append_right _ _ _ _ (by omega), hPlen, Nat.sub_self,
        ← List.getElem_cons_drop orig n hnlt]
      rfl
    have htake : orig.take (n + 1) = orig.take n ++ [orig[n]] := by
      rw [← List.take_concat_get orig n hnlt, List.concat_eq_append]
    have htakeS : (P ++ orig.drop n).take n = P := by
      rw [← hPlen, List.take_left]
    have hdropS : (P ++ orig.drop n).drop (n + 1) = orig.drop (n + 1) := by
      have h1 : (P ++ orig.drop n).drop n = orig.drop n := by
        rw [← hPlen, List.drop_left]
      have h2 : (P ++ orig.drop n).drop (n + 1) = ((P ++ orig.drop n).drop n).drop 1 := by
        rw [List.drop_drop]
      rw [h2, h1, List.drop_drop]
    rw [clearStep_eq,
      rowFullAt_eq _ (by norm_num [TRUE_PLAYFIELD_HEIGHT, PLAYFIELD_HEIGHT]; omega), hgetn]
    by_cases hfull : rowFull (orig[n]) = true
    · rw [if_pos hfull, htakeS, hdropS]
      have hcnt : (orig.take (n + 1)).countP (fun r => rowFull r) = c + 1 := by
        rw [htake, List.countP_append, List.countP_cons]
        simp [hfull]
      have hfilt : (orig.take (n + 1)).filter (fun r => !(rowFull r))
          = (orig.take n).filter (fun r => !(rowFull r)) := by
        rw [htake, List.filter_append]
        simp [List.filter_cons, hfull]
      rw [hcnt, hfilt, List.replicate_succ]
      rw [hP]
      simp [List.append_assoc]
    · rw [if_neg hfull]
      have hfb : rowFull (orig[n]) = false := by
        cases h : rowFull (orig[n])
        · rfl
        · exact absurd h hfull
      have hcnt : (orig.take (n + 1)).countP (fun r => rowFull r) = c := by
        rw [htake, List.countP_append, List.countP_cons]
        simp [hfb]
      have hfilt : (orig.take (n + 1)).filter (fun r => !(rowFull r))
          = (orig.take n).filter (fun r => !(rowFull r)) ++ [orig[n]] := by
        rw [htake, List.filter_append]
        simp [List.filter_cons, hfb]
      rw [hcnt, hfilt, hP]
      have hdrop : orig[n] :: orig.drop (n + 1) = orig.drop n :=
        List.getElem_cons_drop orig n hnlt
      simp only [List.append_assoc, List.singleton_append, List.cons_append,
        List.nil_append]
      rw [hdrop]

/-- C4: clear_completed_lines removes exactly the full rows, shifting all
rows above each full row down by one with fresh empty rows entering at
the top, and returns the number of full rows; in the two-full-row example
the contents of R2 end up directly above those of R4. -/
theorem c4_clear_completed_lines :
    (∀ f : Playfield, f.rows.length = 40 →
        f.clearCompletedLines =
          (f.rows.countP (fun r => rowFull r),
           ⟨List.replicate (f.rows.countP (fun r => rowFull r)) emptyRow
              ++ f.rows.filter (fun r => !(rowFull r))⟩)) ∧
    clearExampleField.clearCompletedLines
      = (2, ⟨List.replicate 38 emptyRow ++ [r2Row, r4Row]⟩) := by
  constructor
  · intro f h40
    unfold Playfield.clearCompletedLines
    dsimp only
    rw [show TRUE_PLAYFIELD_HEIGHT = 40 from by
      norm_num [TRUE_PLAYFIELD_HEIGHT, PLAYFIELD_HEIGHT]]
    rw [clearLoop_eq f.rows h40 40 (le_refl 40)]
    rw [← h40, List.take_length, List.drop_length, List.append_nil]
  · decide

/-- Witness for C4 at a concrete input: the example field has 40 rows and
clearing it gives 2 cleared lines with R2 directly above R4. -/
theorem c4_clear_completed_lines_witness :
    clearExampleField.clearCompletedLines =
      (clearExampleField.rows.countP (fun r => rowFull r),
       ⟨List.replicate (clearExampleField.rows.countP (fun r => rowFull r)) emptyRow
          ++ clearExampleField.rows.filter (fun r => !(rowFull r))⟩) :=
  c4_clear_completed_lines.1 clearExampleField (by decide)

/-!
The no-overlap invariant after successful operations.
-/

theorem spawn_success_noOverlap {g : Game} {p : PieceData}
    (h : (g.spawnNewPiece p).2 = true) :
    ((g.spawnNewPiece p).1).playfield.hasOverlap ((g.spawnNewPiece p).1).active_piece
      = false := by
  unfold Game.spawnNewPiece at h ⊢
  dsimp only at h ⊢
  simpa using h

theorem quickDropFuel_succ (n : Nat) (g : Game) :
    Game.quickDropFuel (n + 1) g =
      if (g.moveDown).2 then Game.quickDropFuel n (g.moveDown).1 else g := rfl

theorem quickDropFuel_preserve {n : Nat} {g : Game}
    (h : g.playfield.hasOverlap g.active_piece = false) :
    (Game.quickDropFuel n g).playfield.hasOverlap
      (Game.quickDropFuel n g).active_piece = false := by
  induction n generalizing g with
  | zero => exact h
  | succ n ih =>
    rw [quickDropFuel_succ]
    by_cases hm : (g.moveDown).2 = true
    · rw [if_pos hm]
      exact ih (tryMove_success_noOverlap hm)
    · rw [if_neg hm]
      exact h

/-- C1 counterexample: from the reachable state obtained by one immediate
finish_piece_turn on a fresh zero-stream game (which reports game over),
hold_piece returns true yet leaves the active piece overlapping the
playfield, refuting the claim for hold_piece. -/
theorem c1_counterexample_hold_overlap :
    ((overlapGame.holdPiece).2 = true) ∧
    ((overlapGame.holdPiece).1).playfield.hasOverlap
      ((overlapGame.holdPiece).1).active_piece = true :=
  ⟨by decide, by decide⟩

/-- C1 amended: after every move or rotate call returning true and after
every finish_piece_turn returning some count, the active piece does not
overlap the playfield; quick_drop preserves the no-overlap property.
The guarantee does not extend to hold_piece returning true. -/
theorem c1_no_overlap_after_success :
    ∀ g : Game,
      ((g.moveLeft).2 = true →
        ((g.moveLeft).1).playfield.hasOverlap ((g.moveLeft).1).active_piece = false) ∧
      ((g.moveRight).2 = true →
        ((g.moveRight).1).playfield.hasOverlap ((g.moveRight).1).active_piece = false) ∧
      ((g.moveDown).2 = true →
        ((g.moveDown).1).playfield.hasOverlap ((g.moveDown).1).active_piece = false) ∧
      ((g.rotateLeft).2 = true →
        ((g.rotateLeft).1).playfield.hasOverlap ((g.rotateLeft).1).active_piece = false) ∧
      ((g.rotateRight).2 = true →
        ((g.rotateRight).1).playfield.hasOverlap
          ((g.rotateRight).1).active_piece = false) ∧
      (∀ n, (g.finishPieceTurn).2 = some n →
        ((g.finishPieceTurn).1).playfield.hasOverlap
          ((g.finishPieceTurn).1).active_piece = false) ∧
      (g.playfield.hasOverlap g.active_piece = false →
        (g.quickDrop).playfield.hasOverlap (g.quickDrop).active_piece = false) := by
  intro g
  refine ⟨fun h => tryMove_success_noOverlap h,
          fun h => tryMove_success_noOverlap h,
          fun h => tryMove_success_noOverlap h, ?_, ?_, ?_, ?_⟩
  · intro h
    rw [rotateLeft_eq] at h ⊢
    exact rotateWith_success_noOverlap h
  · intro h
    rw [rotateRight_eq] at h ⊢
    exact rotateWith_success_noOverlap h
  · intro n h
    unfold Game.finishPieceTurn at h ⊢
    dsimp only at h ⊢
    split at h
    · next hs =>
        rw [if_pos hs]
        exact spawn_success_noOverlap hs
    · next hs => simp at h
  · intro h
    exact quickDropFuel_preserve h

/-- Witness for C1 amended at concrete inputs: on a fresh zero-stream game
a successful move_left leaves no overlap, and quick_drop preserves the
overlap-free state. -/
theorem c1_no_overlap_after_success_witness :
    (((Game.new zeroStream).moveLeft).1).playfield.hasOverlap
      (((Game.new zeroStream).moveLeft).1).active_piece = false ∧
    ((Game.new zeroStream).quickDrop).playfield.hasOverlap
      ((Game.new zeroStream).quickDrop).active_piece = false :=
  ⟨(c1_no_overlap_after_success (Game.new zeroStream)).1 (by decide),
   (c1_no_overlap_after_success (Game.new zeroStream)).2.2.2.2.2.2 (by decide)⟩

/-!
Termination of the quick-drop loop.
-/

theorem wrap8_range (a : Int) : -128 ≤ wrap8 a ∧ wrap8 a ≤ 127 := by
  unfold wrap8
  omega

theorem hasOverlap_false_cell {f : Playfield} {a : ActivePiece} {x y : Nat}
    (hov : f.hasOverlap a = false) (hx : x < 4) (hy : y < 4)
    (hm : matGet a.matrixBits x y = true) :
    f.hasTile (wrapAdd x (castUsize a.position.x)) (wrapAdd y (castUsize a.position.y))
      = false := by
  cases hb : f.hasTile (wrapAdd x (castUsize a.position.x))
      (wrapAdd y (castUsize a.position.y)) with
  | false => rfl
  | true =>
    have hT : f.hasOverlap a = true := by
      unfold Playfield.hasOverlap
      dsimp only
      rw [List.any_eq_true]
      refine ⟨x, List.mem_range.2 hx, ?_⟩
      rw [List.any_eq_true]
      refine ⟨y, List.mem_range.2 hy, ?_⟩
      rw [hm, Bool.true_and]
      exact hb
    rw [hT] at hov
    cases hov

theorem moveDown_success_active {g : Game} (hs : (g.moveDown).2 = true) :
    (g.moveDown).1.active_piece =
      { g.active_piece with
          position := ⟨g.active_piece.position.x, wrap8 (g.active_piece.position.y + 1)⟩ } := by
  unfold Game.moveDown Game.tryMove at hs ⊢
  dsimp only at hs ⊢
  split at hs
  · cases hs
  · next hc => rw [if_neg hc]

theorem moveDown_success_bound {g : Game} {x0 y0 : Nat}
    (hx : x0 < 4) (hy : y0 < 4) (hm : matGet g.active_piece.matrixBits x0 y0 = true)
    (hpy : I8Range g.active_piece.position.y) (hs : (g.moveDown).2 = true) :
    wrap8 (g.active_piece.position.y + 1) = g.active_piece.position.y + 1 ∧
    g.active_piece.position.y + 1 ≤ 39 := by
  have hov0 : ((g.moveDown).1).playfield.hasOverlap ((g.moveDown).1).active_piece
      = false := tryMove_success_noOverlap hs
  have hpf : ((g.moveDown).1).playfield = g.playfield := (moveDown_fields g).1
  have hact := moveDown_success_active hs
  rw [hpf, hact] at hov0
  have hmA : matGet
      ({ g.active_piece with
          position :=
            ⟨g.active_piece.position.x, wrap8 (g.active_piece.position.y + 1)⟩ }
        : ActivePiece).matrixBits x0 y0 = true := hm
  have hTf := hasOverlap_false_cell hov0 hx hy hmA
  dsimp only at hTf
  have hwr := wrap8_range (g.active_piece.position.y + 1)
  have hylt : wrapAdd y0 (castUsize (wrap8 (g.active_piece.position.y + 1))) <
      TRUE_PLAYFIELD_HEIGHT := by
    by_contra hge
    rw [hasTile_oob (Or.inr (by omega))] at hTf
    cases hTf
  have h40 : TRUE_PLAYFIELD_HEIGHT = 40 := by
    norm_num [TRUE_PLAYFIELD_HEIGHT, PLAYFIELD_HEIGHT]
  rw [h40] at hylt
  have hin : ¬(wrap8 (g.active_piece.position.y + 1) + y0 < 0 ∨
      (40 : Int) ≤ wrap8 (g.active_piece.position.y + 1) + y0) := by
    intro hcase
    have hb := wrapAdd_oob (o := y0) (B := 40) (by omega) ⟨hwr.1, hwr.2⟩
      (by norm_num) (by norm_num) hcase
    omega
  push_neg at hin
  obtain ⟨hpy1, hpy2⟩ := hpy
  unfold wrap8 at hin ⊢
  omega

theorem qdf_playfield (n : Nat) (g : Game) :
    (Game.quickDropFuel n g).playfield = g.playfield := by
  induction n generalizing g with
  | zero => rfl
  | succ n ih =>
    rw [quickDropFuel_succ]
    by_cases hm2 : (g.moveDown).2 = true
    · rw [if_pos hm2, ih, (moveDown_fields g).1]
    · rw [if_neg hm2]

theorem qdf_of_fail {g : Game} (h : (g.moveDown).2 = false) :
    ∀ m, Game.quickDropFuel m g = g := by
  intro m
  cases m with
  | zero => rfl
  | succ m => rw [quickDropFuel_succ, if_neg (by simp [h])]

theorem qdf_add (n m : Nat) (g : Game) :
    Game.quickDropFuel (n + m) g = Game.quickDropFuel m (Game.quickDropFuel n g) := by
  induction n generalizing g with
  | zero =>
    rw [Nat.zero_add]
    rfl
  | succ n ih =>
    have he : n + 1 + m = (n + m) + 1 := by omega
    rw [he, quickDropFuel_succ, quickDropFuel_succ]
    by_cases hm2 : (g.moveDown).2 = true
    · rw [if_pos hm2, if_pos hm2, ih]
    · rw [if_neg hm2, if_neg hm2]
      exact (qdf_of_fail (by simpa using hm2) m).symm

theorem qdf_stops {fuel : Nat} {g : Game}
    (hocc : ∃ x, x < 4 ∧ ∃ y, y < 4 ∧ matGet g.active_piece.matrixBits x y = true)
    (hpy : I8Range g.active_piece.position.y)
    (hfuel : 40 - g.active_piece.position.y ≤ (fuel : Int)) :
    ((Game.quickDropFuel fuel g).moveDown).2 = false := by
  induction fuel generalizing g with
  | zero =>
    obtain ⟨x0, hx, y0, hy, hm⟩ := hocc
    show (g.moveDown).2 = false
    cases hb : (g.moveDown).2 with
    | false => rfl
    | true =>
      have hbd := moveDown_success_bound hx hy hm hpy hb
      simp only [Nat.cast_zero] at hfuel
      omega
  | succ n ih =>
    rw [quickDropFuel_succ]
    by_cases hm2 : (g.moveDown).2 = true
    · rw [if_pos hm2]
      obtain ⟨x0, hx, y0, hy, hm⟩ := hocc
      have hbd := moveDown_success_bound hx hy hm hpy hm2
      have hact := moveDown_success_active hm2
      obtain ⟨hpy1, hpy2⟩ := hpy
      apply ih
      · exact ⟨x0, hx, y0, hy, by rw [hact]; exact hm⟩
      · rw [hact]
        dsimp only
        rw [hbd.1]
        exact ⟨by omega, by omega⟩
      · rw [hact]
        dsimp only
        rw [hbd.1]
        push_cast at hfuel
        omega
    · rw [if_neg hm2]
      cases hb : (g.moveDown).2 with
      | false => rfl
      | true => exact absurd hb hm2

/-- C10: on any state whose active piece has at least one occupied matrix
cell, quick_drop terminates (the modelling fuel of 256 is never exhausted
and adding fuel changes nothing), it leaves every playfield cell
unchanged, and an immediate further move_down fails. -/
theorem c10_quick_drop_terminates :
    ∀ g : Game,
      (∃ x, x < 4 ∧ ∃ y, y < 4 ∧ matGet g.active_piece.matrixBits x y = true) →
      I8Range g.active_piece.position.y →
      (g.quickDrop).playfield = g.playfield ∧
      ((g.quickDrop).moveDown).2 = false ∧
      (∀ m, Game.quickDropFuel (256 + m) g = g.quickDrop) := by
  intro g hocc hpy
  have hstop : ((Game.quickDropFuel 256 g).moveDown).2 = false := by
    apply qdf_stops hocc hpy
    obtain ⟨h1, h2⟩ := hpy
    push_cast
    omega
  refine ⟨qdf_playfield 256 g, hstop, fun m => ?_⟩
  rw [qdf_add 256 m g]
  exact qdf_of_fail hstop m

/-- Witness for C10 at a concrete input: the fresh zero-stream game's
piece has an occupied cell and a valid position; its quick_drop leaves
the field unchanged and a further move_down fails. -/
theorem c10_quick_drop_terminates_witness :
    ((Game.new zeroStream).quickDrop).playfield = (Game.new zeroStream).playfield ∧
    (((Game.new zeroStream).quickDrop).moveDown).2 = false :=
  ⟨(c10_quick_drop_terminates (Game.new zeroStream)
      ⟨0, by norm_num, 0, by norm_num, by decide⟩ (by decide)).1,
   (c10_quick_drop_terminates (Game.new zeroStream)
      ⟨0, by norm_num, 0, by norm_num, by decide⟩ (by decide)).2.1⟩

/-!
Refinement of the rotation resolver against its specification-side
formulation.
-/

theorem tryMoveKicks_eq_spec (g : Game) (trg : Nat) :
    ∀ ks : List Vec2I8, g.tryMoveKicks trg ks = commitFirstSpec g trg ks := by
  intro ks
  induction ks generalizing g with
  | nil => rfl
  | cons t rest ih =>
    rw [tryMoveKicks_cons]
    unfold Game.tryMove commitFirstSpec
    dsimp only
    by_cases hov : g.playfield.hasOverlap
        { g.active_piece with rotation := trg, position := g.active_piece.position.add t }
        = true
    · simp only [if_pos hov]
      simpa using ih g
    · simp only [if_neg hov]
      simp

theorem bare_add_zero {g : Game}
    (hpx : I8Range g.active_piece.position.x) (hpy : I8Range g.active_piece.position.y) :
    g.active_piece.position.add ⟨0, 0⟩ = g.active_piece.position := by
  unfold Vec2I8.add
  dsimp only
  rw [Int.add_zero, Int.add_zero, wrap8_id hpx.1 hpx.2, wrap8_id hpy.1 hpy.2]

theorem rotateWith_eq_spec (g : Game) (trg : Nat) (ks : List Vec2I8)
    (hpx : I8Range g.active_piece.position.x) (hpy : I8Range g.active_piece.position.y) :
    g.rotateWith trg ks = commitFirstSpec g trg (⟨0, 0⟩ :: ks) := by
  unfold Game.rotateWith Game.tryMove commitFirstSpec
  dsimp only
  rw [bare_add_zero hpx hpy]
  by_cases hov : g.playfield.hasOverlap
      { g.active_piece with rotation := trg, position := g.active_piece.position } = true
  · simp only [if_pos hov]
    simpa using tryMoveKicks_eq_spec g trg ks
  · simp only [if_neg hov]
    simp

/-- C3: both rotations compute the target as current rotation plus or
minus 1 mod 4, attempt the bare rotation first and then the four kicks in
table order committing the first non-overlapping candidate, rotate_right
reading the current state's kick table and rotate_left the target state's
table negated; and the golden I-piece instance, blocked bare and at
(-2,0) but free at (1,0), lands in rotation state 1 displaced by (1,0). -/
theorem c3_rotation_resolution :
    (∀ g : Game, g.active_piece.rotation < 4 →
        I8Range g.active_piece.position.x → I8Range g.active_piece.position.y →
        g.rotateRight = g.rotateRightSpec ∧ g.rotateLeft = g.rotateLeftSpec) ∧
    (kickGoldenGame.playfield.hasOverlap
        { kickGoldenGame.active_piece with rotation := 1 } = true ∧
      kickGoldenGame.playfield.hasOverlap
        { kickGoldenGame.active_piece with rotation := 1, position := ⟨1, 30⟩ } = true ∧
      kickGoldenGame.playfield.hasOverlap
        { kickGoldenGame.active_piece with rotation := 1, position := ⟨4, 30⟩ } = false ∧
      (kickGoldenGame.rotateRight).2 = true ∧
      (kickGoldenGame.rotateRight).1.active_piece.rotation = 1 ∧
      (kickGoldenGame.rotateRight).1.active_piece.position = ⟨4, 30⟩) := by
  constructor
  · intro g hrot hpx hpy
    have h4 : g.active_piece.rotation = 0 ∨ g.active_piece.rotation = 1 ∨
        g.active_piece.rotation = 2 ∨ g.active_piece.rotation = 3 := by omega
    constructor
    · have htrg : (if g.active_piece.rotation == 3 then 0
          else g.active_piece.rotation + 1) = (g.active_piece.rotation + 1) % 4 := by
        rcases h4 with h | h | h | h <;> rw [h] <;> decide
      rw [rotateRight_eq, rotateWith_eq_spec _ _ _ hpx hpy]
      unfold Game.rotateRightSpec
      rw [htrg]
    · have htrg : (if g.active_piece.rotation == 0 then 3
          else g.active_piece.rotation - 1) = (g.active_piece.rotation + 3) % 4 := by
        rcases h4 with h | h | h | h <;> rw [h] <;> decide
      rw [rotateLeft_eq, rotateWith_eq_spec _ _ _ hpx hpy]
      unfold Game.rotateLeftSpec
      rw [htrg]
  · exact ⟨by decide, by decide, by decide, by decide, by decide, by decide⟩

/-- Witness for C3 at a concrete input: the golden game satisfies the
refinement hypotheses, so its clockwise rotation agrees with the
specification-side resolver. -/
theorem c3_rotation_resolution_witness :
    kickGoldenGame.rotateRight = kickGoldenGame.rotateRightSpec :=
  ((c3_rotation_resolution.1 kickGoldenGame (by decide) (by decide) (by decide)).1)

/-!
The bag randomizer: every refill is a permutation of the 7 kind indices,
the invariant is preserved, and seven boundary-aligned draws cover all
kinds.
-/

theorem getD_cons_eraseIdx_perm (l : List Nat) (j : Nat) (hj : j < l.length) :
    (l.getD j 0 :: l.eraseIdx j).Perm l := by
  rw [List.getD_eq_getElem _ _ hj, List.eraseIdx_eq_take_drop_succ]
  have h1 : (l.take j ++ l[j] :: l.drop (j + 1)).Perm
      (l[j] :: (l.take j ++ l.drop (j + 1))) := List.perm_middle
  have h2 : l.take j ++ l[j] :: l.drop (j + 1) = l := by
    rw [List.getElem_cons_drop l j hj, List.take_append_drop]
  have h3 : (l.take j ++ l[j] :: l.drop (j + 1)).Perm l := by
    rw [h2]
  exact h1.symm.trans h3

theorem refillGo_perm (s : Nat → Nat) :
    ∀ (n : Nat) (cur : List Nat) (idx : Nat), cur.length = n →
      (refillGo s cur idx n).Perm cur := by
  intro n
  induction n with
  | zero =>
    intro cur idx h
    rw [List.length_eq_zero.mp h]
    rfl
  | succ n ih =>
    intro cur idx h
    unfold refillGo
    dsimp only
    have hpos : 0 < cur.length := by omega
    have hj : s idx % cur.length < cur.length := Nat.mod_lt _ hpos
    have hel : (cur.eraseIdx (s idx % cur.length)).length = n := by
      rw [List.length_eraseIdx, if_pos hj]
      omega
    exact ((ih _ _ hel).cons _).trans (getD_cons_eraseIdx_perm cur _ hj)

theorem refillBag_perm (s : Nat → Nat) (idx : Nat) :
    (refillBag s idx).Perm [0, 1, 2, 3, 4, 5, 6] :=
  refillGo_perm s 7 [0, 1, 2, 3, 4, 5, 6] idx (by decide)

theorem refillBag_length (s : Nat → Nat) (idx : Nat) : (refillBag s idx).length = 7 := by
  rw [(refillBag_perm s idx).length_eq]
  decide

theorem refillBag_mem_lt (s : Nat → Nat) (idx : Nat) :
    ∀ k ∈ refillBag s idx, k < 7 := by
  intro k hk
  have hm := (refillBag_perm s idx).mem_iff.mp hk
  simp at hm
  omega

theorem nextKind_spec {r : RandomGenerator} (hr : RInv r) :
    (r.nextKind).1 < 7 ∧ RInv (r.nextKind).2 := by
  obtain ⟨hlen, hle, hbnd⟩ := hr
  unfold RandomGenerator.nextKind RInv
  dsimp only
  by_cases hbl : r.bag_left > 0
  · rw [if_pos hbl]
    dsimp only
    exact ⟨hbnd _ (by omega), hlen, by omega, fun i hi => hbnd i (by omega)⟩
  · rw [if_neg hbl]
    dsimp only
    have h7 := refillBag_length r.stream r.idx
    refine ⟨?_, refillBag_length r.stream r.idx, by omega, fun i hi => ?_⟩
    · have hmem : (refillBag r.stream r.idx).getD 6 0 ∈ refillBag r.stream r.idx := by
        rw [List.getD_eq_getElem _ _ (by omega)]
        exact List.getElem_mem _
      exact refillBag_mem_lt _ _ _ hmem
    · have hmem : (refillBag r.stream r.idx).getD i 0 ∈ refillBag r.stream r.idx := by
        rw [List.getD_eq_getElem _ _ (by omega)]
        exact List.getElem_mem _
      exact refillBag_mem_lt _ _ _ hmem

theorem drawKinds_pop (bl : Nat) :
    ∀ r : RandomGenerator, r.bag_left = bl → bl ≤ r.bag.length →
      drawKinds bl r = (r.bag.take bl).reverse := by
  induction bl with
  | zero => intro r h1 h2; rfl
  | succ bl ih =>
    intro r h1 h2
    unfold drawKinds RandomGenerator.nextKind
    dsimp only
    rw [if_pos (by omega : r.bag_left > 0)]
    dsimp only
    rw [ih _ (by dsimp only; omega) (by dsimp only; omega)]
    dsimp only
    rw [h1]
    simp only [Nat.add_sub_cancel]
    rw [List.getD_eq_getElem _ _ (by omega),
      ← List.take_concat_get _ _ (by omega), List.concat_eq_append,
      List.reverse_append]
    rfl

theorem drawKinds_boundary {r : RandomGenerator} (_hr : RInv r) (h0 : r.bag_left = 0) :
    (drawKinds 7 r).Perm [0, 1, 2, 3, 4, 5, 6] := by
  show ((r.nextKind).1 :: drawKinds 6 (r.nextKind).2).Perm [0, 1, 2, 3, 4, 5, 6]
  unfold RandomGenerator.nextKind
  dsimp only
  rw [if_neg (by omega)]
  dsimp only
  have h7 := refillBag_length r.stream r.idx
  rw [drawKinds_pop 6 _ rfl (by dsimp only; omega)]
  dsimp only
  rw [List.getD_eq_getElem _ _ (by omega)]
  have hstep : ((refillBag r.stream r.idx)[6] :
      Nat) :: ((refillBag r.stream r.idx).take 6).reverse
      = ((refillBag r.stream r.idx).take 6 ++ [(refillBag r.stream r.idx)[6]]).reverse := by
    rw [List.reverse_append]
    rfl
  rw [hstep, ← List.concat_eq_append, List.take_concat_get _ _ (by omega)]
  have htl : (refillBag r.stream r.idx).take 7 = refillBag r.stream r.idx := by
    rw [← h7, List.take_length]
  rw [htl]
  exact (List.reverse_perm _).trans (refillBag_perm _ _)

/-- C5: every bag refill is a permutation of the 7 kind indices for every
injected choice stream, the randomizer invariant (bag size 7, at most 7
unconsumed, all unconsumed entries valid kinds) holds initially and is
preserved by every draw, each draw yields a valid piece (the table lookup
cannot fail), and 7 consecutive draws starting at a bag boundary yield
each kind exactly once. -/
theorem c5_bag_randomizer :
    (∀ (s : Nat → Nat) (idx : Nat), (refillBag s idx).Perm [0, 1, 2, 3, 4, 5, 6]) ∧
    (∀ s : Nat → Nat, RInv (RandomGenerator.new s)) ∧
    (∀ r : RandomGenerator, RInv r →
        (r.nextKind).1 < 7 ∧ (allPieces.get? ((r.nextKind).1)).isSome = true ∧
        RInv (r.nextKind).2 ∧ (r.nextKind).2.bag_left ≤ 7) ∧
    (∀ r : RandomGenerator, RInv r → r.bag_left = 0 →
        (drawKinds 7 r).Perm [0, 1, 2, 3, 4, 5, 6]) := by
  refine ⟨refillBag_perm, ?_, ?_, fun r hr h0 => drawKinds_boundary hr h0⟩
  · intro s
    exact ⟨by simp [RandomGenerator.new], by simp [RandomGenerator.new],
      fun i hi => absurd hi (by simp [RandomGenerator.new])⟩
  · intro r hr
    obtain ⟨h1, h2⟩ := nextKind_spec hr
    refine ⟨h1, ?_, h2, h2.2.1⟩
    have hlen : (r.nextKind).1 < allPieces.length := by
      have : allPieces.length = 7 := rfl
      omega
    rw [List.get?_eq_getElem?]
    simp [hlen]

/-- Witness for C5 at a concrete input: the fresh zero-stream randomizer
satisfies the invariant and sits at a bag boundary, so its first refill
is a permutation of the 7 kinds and its first 7 draws cover each kind
exactly once. -/
theorem c5_bag_randomizer_witness :
    (refillBag zeroStream 0).Perm [0, 1, 2, 3, 4, 5, 6] ∧
    (drawKinds 7 (RandomGenerator.new zeroStream)).Perm [0, 1, 2, 3, 4, 5, 6] :=
  ⟨c5_bag_randomizer.1 zeroStream 0,
   c5_bag_randomizer.2.2.2 (RandomGenerator.new zeroStream)
     (c5_bag_randomizer.2.1 zeroStream) rfl⟩

/-!
Factoring move_down, its iteration, and spawn_new_piece through the
reduced playfield-and-active-piece step functions.
-/

theorem moveDown_eq (g : Game) :
    g.moveDown = ({ g with active_piece := (paMoveDown g.playfield g.active_piece).1 },
      (paMoveDown g.playfield g.active_piece).2) := by
  unfold Game.moveDown Game.tryMove paMoveDown
  dsimp only
  by_cases hov : g.playfield.hasOverlap
      { g.active_piece with
          position := ⟨g.active_piece.position.x, wrap8 (g.active_piece.position.y + 1)⟩ }
      = true
  · simp only [if_pos hov]
  · simp only [if_neg hov]

theorem moveDownResults_eq (n : Nat) (g : Game) :
    moveDownResults n g = paResults n g.playfield g.active_piece := by
  induction n generalizing g with
  | zero => rfl
  | succ n ih =>
    show (g.moveDown).2 :: moveDownResults n (g.moveDown).1
        = (paMoveDown g.playfield g.active_piece).2 ::
          paResults n g.playfield (paMoveDown g.playfield g.active_piece).1
    rw [moveDown_eq]
    dsimp only
    rw [ih]

theorem moveDownIter_eq (n : Nat) (g : Game) :
    moveDownIter n g = { g with active_piece := paIter n g.playfield g.active_piece } := by
  induction n generalizing g with
  | zero => rfl
  | succ n ih =>
    show moveDownIter n (g.moveDown).1
        = { g with active_piece := paIter n g.playfield (paMoveDown g.playfield g.active_piece).1 }
    rw [moveDown_eq]
    dsimp only
    rw [ih]

theorem spawn_eq (g : Game) (p : PieceData) :
    g.spawnNewPiece p = ({ g with active_piece := (paSpawn g.playfield p).1 },
      (paSpawn g.playfield p).2) := by
  unfold Game.spawnNewPiece paSpawn ActivePiece.new
  dsimp only
  by_cases h4 : p.size < 4
  · simp only [if_pos h4]
    rw [moveDown_eq]
  · simp only [if_neg h4]

/-!
Characterising a fresh game: empty field, spawned first bag draw, an
8-piece queue of canonical pieces, and a clear hold state.
-/

theorem newRInv (s : Nat → Nat) : RInv (RandomGenerator.new s) :=
  ⟨by simp [RandomGenerator.new], by simp [RandomGenerator.new],
    fun i hi => absurd hi (by simp [RandomGenerator.new])⟩

theorem newRng_nextKind (s : Nat → Nat) :
    ((RandomGenerator.new s).nextKind).1 = firstKind s := by
  unfold RandomGenerator.new RandomGenerator.nextKind firstKind
  dsimp only
  rw [if_neg (by simp)]

theorem gameNew_parts (s : Nat → Nat) :
    (Game.new s).playfield = Playfield.new ∧
    (Game.new s).used_hold = false ∧
    (Game.new s).held_piece = none ∧
    (Game.new s).active_piece = spawnedAP (firstKind s) := by
  unfold Game.new RandomGenerator.nextPiece
  dsimp only
  rw [spawn_eq]
  dsimp only
  rw [newRng_nextKind]
  exact ⟨rfl, rfl, rfl, rfl⟩

theorem fill_facts (xs : List Nat) :
    ∀ acc : List PieceData × RandomGenerator, RInv acc.2 →
      (xs.foldl
          (fun (st : List PieceData × RandomGenerator) _ =>
            (st.1 ++ [(st.2.nextPiece).1], (st.2.nextPiece).2)) acc).1.length
          = acc.1.length + xs.length ∧
      (∀ p ∈ (xs.foldl
          (fun (st : List PieceData × RandomGenerator) _ =>
            (st.1 ++ [(st.2.nextPiece).1], (st.2.nextPiece).2)) acc).1,
        p ∈ acc.1 ∨ PieceOk p) := by
  induction xs with
  | nil =>
    intro acc hacc
    exact ⟨by simp, fun p hp => Or.inl hp⟩
  | cons a t ih =>
    intro acc hacc
    simp only [List.foldl_cons]
    have hnext := nextKind_spec hacc
    have h1 := ih (acc.1 ++ [(acc.2.nextPiece).1], (acc.2.nextPiece).2) hnext.2
    refine ⟨?_, ?_⟩
    · rw [h1.1]
      simp only [List.length_append, List.length_cons, List.length_nil]
      omega
    · intro p hp
      rcases h1.2 p hp with h | h
      · rcases List.mem_append.mp h with h | h
        · exact Or.inl h
        · refine Or.inr ⟨(acc.2.nextKind).1, hnext.1, ?_⟩
          rw [List.mem_singleton] at h
          exact h
      · exact Or.inr h

theorem gameNew_queue (s : Nat → Nat) :
    (Game.new s).next_pieces.length = 8 ∧
    ∀ p ∈ (Game.new s).next_pieces, PieceOk p := by
  unfold Game.new
  dsimp only
  rw [spawn_eq]
  dsimp only
  have hinit : RInv (((RandomGenerator.new s).nextPiece).2) :=
    (nextKind_spec (newRInv s)).2
  obtain ⟨hlen, hmem⟩ :=
    fill_facts (List.range 8) ([], ((RandomGenerator.new s).nextPiece).2) hinit
  refine ⟨by rw [hlen]; simp, fun p hp => ?_⟩
  rcases hmem p hp with h | h
  · cases h
  · exact h

theorem headD_mem {l : List PieceData} (h : l ≠ []) (d : PieceData) : l.headD d ∈ l := by
  cases l with
  | nil => exact absurd rfl h
  | cons a t => simp [List.headD]

/-!
Spawning always succeeds while the top of the field is empty, and a
finish_piece_turn from such a position reports its cleared count and
activates the former queue head.
-/

theorem paMoveDown_cases (f : Playfield) (a : ActivePiece) :
    (paMoveDown f a).1 = a ∨
    (paMoveDown f a).1 = { a with position := ⟨a.position.x, wrap8 (a.position.y + 1)⟩ } := by
  unfold paMoveDown
  dsimp only
  split
  · exact Or.inl rfl
  · exact Or.inr rfl

theorem hasOverlap_empty_top {f : Playfield} {a : ActivePiece}
    (hemp : ∀ x y, x < PLAYFIELD_WIDTH → y < 24 → f.hasTile x y = false)
    (hx : a.position.x = 3 ∨ a.position.x = 4)
    (hy : a.position.y = 19 ∨ a.position.y = 20) :
    f.hasOverlap a = false := by
  unfold Playfield.hasOverlap
  dsimp only
  rw [List.any_eq_false]
  intro x hxm
  rw [Bool.not_eq_true, List.any_eq_false]
  intro y hym
  rw [Bool.not_eq_true]
  have hxlt : x < 4 := List.mem_range.1 hxm
  have hylt : y < 4 := List.mem_range.1 hym
  have hcx : (wrapAdd x (castUsize a.position.x) : Int) = a.position.x + x := by
    apply wrapAdd_inb
    · rcases hx with h | h <;> rw [h] <;> exact ⟨by norm_num, by norm_num⟩
    · rcases hx with h | h <;> rw [h] <;> omega
    · rcases hx with h | h <;> rw [h] <;> omega
  have hcy : (wrapAdd y (castUsize a.position.y) : Int) = a.position.y + y := by
    apply wrapAdd_inb
    · rcases hy with h | h <;> rw [h] <;> exact ⟨by norm_num, by norm_num⟩
    · rcases hy with h | h <;> rw [h] <;> omega
    · rcases hy with h | h <;> rw [h] <;> omega
  have h1 : wrapAdd x (castUsize a.position.x) < PLAYFIELD_WIDTH := by
    have h10 : PLAYFIELD_WIDTH = 10 := rfl
    rcases hx with h | h <;> rw [h] at hcx ⊢ <;> omega
  have h2 : wrapAdd y (castUsize a.position.y) < 24 := by
    rcases hy with h | h <;> rw [h] at hcy ⊢ <;> omega
  rw [hemp _ _ h1 h2, Bool.and_false]

theorem paSpawnAux_success {f : Playfield} (p : PieceData) (sp : Vec2I8)
    (hemp : ∀ x y, x < PLAYFIELD_WIDTH → y < 24 → f.hasTile x y = false)
    (hx : sp.x = 3 ∨ sp.x = 4) (hy : sp.y = 19) :
    f.hasOverlap
      (if p.size < 4 then (paMoveDown f (ActivePiece.new p sp)).1
       else ActivePiece.new p sp) = false := by
  by_cases h4 : p.size < 4
  · simp only [if_pos h4]
    rcases paMoveDown_cases f (ActivePiece.new p sp) with h | h <;> rw [h]
    · exact hasOverlap_empty_top hemp hx (Or.inl hy)
    · apply hasOverlap_empty_top hemp
      · exact hx
      · right
        show wrap8 (sp.y + 1) = 20
        rw [hy]
        decide
  · simp only [if_neg h4]
    exact hasOverlap_empty_top hemp hx (Or.inl hy)

theorem spawn_success_of_empty_top {g : Game} {p : PieceData}
    (hemp : ∀ x y, x < PLAYFIELD_WIDTH → y < 24 → g.playfield.hasTile x y = false) :
    (g.spawnNewPiece p).2 = true := by
  rw [spawn_eq]
  dsimp only
  unfold paSpawn
  dsimp only
  rw [Bool.not_eq_true']
  apply paSpawnAux_success p _ hemp
  · by_cases h2 : (p.size == 2) = true
    · rw [if_pos h2]
      right
      rfl
    · rw [if_neg h2]
      left
      rfl
  · by_cases h2 : (p.size == 2) = true
    · rw [if_pos h2]
      decide
    · rw [if_neg h2]
      decide

theorem finish_of_clear_spawn {g : Game}
    (hc : ((g.playfield.copyInPiece g.active_piece).clearCompletedLines)
        = (0, g.playfield.copyInPiece g.active_piece))
    (hs : ∀ x y, x < PLAYFIELD_WIDTH → y < 24 →
        (g.playfield.copyInPiece g.active_piece).hasTile x y = false) :
    (g.finishPieceTurn).2 = some 0 ∧
    (g.finishPieceTurn).1.active_piece.piece_data
      = g.next_pieces.headD PieceData.defaultData := by
  unfold Game.finishPieceTurn Game.lockDownPiece Game.popNextPiece
  dsimp only
  rw [hc]
  dsimp only
  split
  · exact ⟨rfl, (spawn_fields _ _).2.2.2.2.2⟩
  · next hcond =>
      exfalso
      apply hcond
      apply spawn_success_of_empty_top
      intro x y hx hy
      exact hs x y hx hy

/-- C9 counterexample: on the zero-stream fresh game (empty field), the
19th move_down call already returns false, so move_down does not return
true HEIGHT = 20 consecutive times as claimed; the actual outcome is 18
successes followed by failures. -/
theorem c9_counterexample_move_down_count :
    moveDownResults 21 (Game.new zeroStream) ≠ List.replicate 20 true ++ [false] ∧
    moveDownResults 21 (Game.new zeroStream)
      = List.replicate 18 true ++ List.replicate 3 false :=
  ⟨by decide, by decide⟩

/-- C9 amended: on a fresh game, for every outcome of the randomizer's
draws, move_down returns true exactly HEIGHT - 2 = 18 consecutive times
(HEIGHT - 1 = 19 when the first piece is the I piece, which skips the
spawn-time drop) and then false; the finish_piece_turn call made at the
resting position returns a cleared-line count of 0, and the new active
piece is the piece that was at the front of the lookahead queue. -/
theorem c9_fresh_game_drop_and_finish :
    ∀ s : Nat → Nat,
      firstKind s < 7 ∧
      moveDownResults (dropSteps (firstKind s) + 1) (Game.new s)
        = List.replicate (dropSteps (firstKind s)) true ++ [false] ∧
      ((moveDownIter (dropSteps (firstKind s)) (Game.new s)).finishPieceTurn).2
        = some 0 ∧
      ((moveDownIter (dropSteps (firstKind s))
          (Game.new s)).finishPieceTurn).1.active_piece.piece_data
        = (Game.new s).next_pieces.headD PieceData.defaultData := by
  intro s
  have h7 := refillBag_length s 0
  have hk : firstKind s < 7 := by
    have hmem : (refillBag s 0).getD 6 0 ∈ refillBag s 0 := by
      rw [List.getD_eq_getElem _ _ (by omega)]
      exact List.getElem_mem _
    exact refillBag_mem_lt _ _ _ hmem
  obtain ⟨hpf, huh, hheld, hact⟩ := gameNew_parts s
  refine ⟨hk, ?_, ?_⟩
  · have hcount : ∀ k, k < 7 →
        paResults (dropSteps k + 1) Playfield.new (spawnedAP k)
          = List.replicate (dropSteps k) true ++ [false] := by decide
    rw [moveDownResults_eq, hpf, hact]
    exact hcount _ hk
  · have hclear : ∀ k, k < 7 →
        (lockedField k).clearCompletedLines = (0, lockedField k) := by decide
    have hempU : ∀ k, k < 7 → ∀ x, x < PLAYFIELD_WIDTH → ∀ y, y < 24 →
        (lockedField k).hasTile x y = false := by decide
    rw [moveDownIter_eq, hpf, hact]
    obtain ⟨hf1, hf2⟩ := finish_of_clear_spawn
      (g := ⟨Playfield.new,
        paIter (dropSteps (firstKind s)) Playfield.new (spawnedAP (firstKind s)),
        (Game.new s).next_pieces, (Game.new s).held_piece, (Game.new s).used_hold,
        (Game.new s).rng⟩)
      (hclear _ hk)
      (fun x y hx hy => hempU _ hk x hx y hy)
    exact ⟨hf1, hf2⟩

/-- Witness for C9 amended at a concrete input: the zero-stream game
realises the amended drop count. -/
theorem c9_fresh_game_drop_and_finish_witness :
    moveDownResults (dropSteps (firstKind zeroStream) + 1) (Game.new zeroStream)
      = List.replicate (dropSteps (firstKind zeroStream)) true ++ [false] :=
  (c9_fresh_game_drop_and_finish zeroStream).2.1

/-- Witness for C2 at a concrete input: after 18 drops the zero-stream
game's piece rests on the floor, move_down fails there, and the failing
call leaves the game unchanged. -/
theorem c2_failed_move_changes_nothing_witness :
    ((moveDownIter 18 (Game.new zeroStream)).moveDown).2 = false ∧
      ((moveDownIter 18 (Game.new zeroStream)).moveDown).1
        = moveDownIter 18 (Game.new zeroStream) := by
  refine ⟨by decide, ?_⟩
  exact (c2_failed_move_changes_nothing (moveDownIter 18 (Game.new zeroStream))).2.2.1
    (by decide)

end Tetromino
